import Mathlib

/-!
Verification of the upload / text-extraction service (`src/backend/main.py`).

A shallow embedding of the single-file FastAPI service in
`src/backend/main.py` and proofs of the specification's claims about it.

Modelling conventions:
* File bytes are abstracted by the results of the two external
  interpretations the code applies to them (`UploadContent`): what decoding
  the stored file as UTF-8 yields (`utf8Decode`, `none` = decode error),
  and what opening it with PyMuPDF yields (`pdfParse`, `none` = `fitz.open`
  raises; otherwise the list of pages, each page being `some text` when
  `page.get_text()` returns `text`, `none` when it raises).
* CPython strings split and lower-case per character; `str.split(".")` is
  embedded as `splitOnChar` on the underlying character list, and
  `[-1]` as `List.getLastD` (the split result is never empty).
* Python's text-mode read (`open(path, "r", encoding="utf-8")`) applies
  universal-newline translation after decoding: `"\r\n"` and a lone `"\r"`
  are read back as `"\n"`; this is `universalNewlines`.
* The in-memory store `_upload_store` and the storage directory are
  association lists keyed by doc-id and path; the handler is a state
  transformer on `ServerState`.
* `uuid.uuid4()` is an input parameter `doc_id` (freshness, where a claim
  needs it, is a hypothesis).
* The success/failure of the `open`/`shutil.copyfileobj` storage step is a
  boolean parameter `writeOk`; the failure branch models an `open` that
  raises before creating the file (a failure mid-copy would leave a partial
  file behind, a state no claim below inspects).
* `ALLOWED_EXTENSIONS` is a two-element Python `set`; the iteration order
  its join in the 400 message uses depends on the per-process hash seed,
  so the error-message builder takes the order as a parameter constrained
  to be a permutation of the set elements.
-/

namespace UploadService

/-- Embedding of Python's `s.split(sep)` for a one-character separator, on
the character list of the string: split on every occurrence of the
separator; the result is never empty and adjacent separators produce
empty components, exactly as in CPython. -/
def splitOnChar (c : Char) : List Char → List (List Char)
  | [] => [[]]
  | x :: xs =>
    let r := splitOnChar c xs
    if x = c then [] :: r
    else
      match r with
      | [] => [[x]]
      | y :: ys => (x :: y) :: ys

/-- Embedding of `filename.split(".")[-1].lower()` from line 53 of
`main.py`. -/
def pyExtOf (fn : String) : String :=
  ⟨((splitOnChar '.' fn.data).getLastD []).map Char.toLower⟩

/-- Line 53: `file.filename.split(".")[-1].lower() if file.filename else ""`.
`file.filename` is `Optional[str]`; both `None` and `""` are falsy. -/
def derivedExtension : Option String → String
  | none => ""
  | some fn => if fn = "" then "" else pyExtOf fn

/-- Line 14: `ALLOWED_EXTENSIONS = {"pdf", "txt"}` (a `set`; membership is
order-independent, iteration order is per-process). -/
def ALLOWED_EXTENSIONS : List String := ["pdf", "txt"]

/-- Line 12: `STORAGE_DIR = "backend/storage"`. -/
def STORAGE_DIR : String := "backend/storage"

/-- Line 62: `os.path.join(STORAGE_DIR, f"{doc_id}.{file_extension}")`. -/
def storagePath (doc_id ext : String) : String :=
  STORAGE_DIR ++ "/" ++ doc_id ++ "." ++ ext

/-- Embedding of Python's `str.upper()`: upper-case character by
character (all strings involved are ASCII). -/
def pyUpper (s : String) : String :=
  ⟨s.data.map Char.toUpper⟩

/-- The 400 detail of lines 55-59: the f-string interpolates the join of
the set `ALLOWED_EXTENSIONS` with separator comma-space, upper-cased.
`order` is the iteration order of the set (hash-seed dependent, hence a
parameter). -/
def invalidTypeDetail (order : List String) : String :=
  "Invalid file type. Only " ++ pyUpper (String.intercalate ", " order)
    ++ " files are allowed."

/-- Worker for universal-newline translation, processing one character at
a time; the boolean records whether the previous character was a still
pending carriage return. A pending CR is emitted as a line feed: it
absorbs an immediately following LF, and any other following character is
processed normally after it. -/
def unlAux : Bool → List Char → List Char
  | false, [] => []
  | true, [] => ['\n']
  | false, c :: rest =>
    if c = '\r' then unlAux true rest else c :: unlAux false rest
  | true, c :: rest =>
    if c = '\n' then '\n' :: unlAux false rest
    else if c = '\r' then '\n' :: unlAux true rest
    else '\n' :: c :: unlAux false rest

/-- Universal-newline translation performed by a Python text-mode read
(`open(path, "r", ...)` with default `newline=None`): `"\r\n"` and a lone
`"\r"` are both read back as `"\n"`. -/
def universalNewlinesL (l : List Char) : List Char :=
  unlAux false l

/-- String version of `universalNewlinesL`. -/
def universalNewlines (s : String) : String :=
  ⟨universalNewlinesL s.data⟩

/-- What the two external interpretations of a stored file's bytes yield.
`utf8Decode`: the string obtained by decoding the bytes as UTF-8 (`none` =
`UnicodeDecodeError`). `pdfParse`: the pages `fitz.open` yields (`none` =
open/parse raises); each page is `some t` when `page.get_text()` returns
`t` and `none` when it raises. -/
structure UploadContent where
  utf8Decode : Option String
  pdfParse : Option (List (Option String))
deriving Repr, DecidableEq

/-- The `for page in doc: text_content += page.get_text()` loop of lines
28-29: accumulate page texts left to right; a raising page aborts the loop
(the exception propagates). -/
def pdfPageLoop : List (Option String) → String → Option String
  | [], acc => some acc
  | some t :: rest, acc => pdfPageLoop rest (acc ++ t)
  | none :: _, _ => none

/-- Body of the `try` of `extract_text_from_file` (lines 24-38): dispatch
on the extension; `none` models a raising branch (PDF parse failure, a
raising `page.get_text()`, UTF-8 decode failure, or the `ValueError` of
the unsupported-type arm). The file at `file_path` is abstracted by
`content`. -/
def extractInner (content : UploadContent) (file_ext : String) :
    Option String :=
  if file_ext = "pdf" then
    match content.pdfParse with
    | some pages => pdfPageLoop pages ""
    | none => none
  else if file_ext = "txt" then
    (content.utf8Decode).map universalNewlines
  else
    none

/-- Completion of `extract_text_from_file`: the surrounding
`try`/`except` of lines 24-45 turns any raising branch (`none` from
`extractInner`) into `HTTPException(500, "Failed to extract text from file.")`. -/
def extract_text_from_file (content : UploadContent) (file_ext : String) :
    Except (Nat × String) String :=
  match extractInner content file_ext with
  | some t => Except.ok t
  | none => Except.error (500, "Failed to extract text from file.")

/-- Resource trace of the `pdf` branch (lines 26-31): whether the
`fitz.open` document handle was opened and whether `doc.close()` was
reached.  `doc.close()` is the statement *after* the page loop, with no
`try`/`finally`/context manager around it, so it runs only when every
`page.get_text()` call returns. -/
structure PdfTrace where
  result : Option String
  docOpened : Bool
  docClosed : Bool
deriving Repr, DecidableEq

/-- Instrumented embedding of the `pdf` branch of
`extract_text_from_file`, recording open/close of the document handle. -/
def extractPdfTraced (pdfParse : Option (List (Option String))) : PdfTrace :=
  match pdfParse with
  | none => ⟨none, false, false⟩
  | some pages =>
    match pdfPageLoop pages "" with
    | some t => ⟨some t, true, true⟩
    | none => ⟨none, true, false⟩

/-- One entry of `_upload_store` (lines 77-82): the dict
`{"filename": ..., "filepath": ..., "extension": ..., "text": ...}`. -/
structure UploadRecord where
  filename : Option String
  filepath : String
  extension : String
  text : String
deriving Repr, DecidableEq

/-- First-match association-list lookup (Python dict access by key; keys
are unique in every state the handlers construct). -/
def storeLookup (store : List (String × UploadRecord)) (k : String) :
    Option UploadRecord :=
  match store with
  | [] => none
  | (k2, v) :: rest => if k2 = k then some v else storeLookup rest k

/-- The process-wide state: `_upload_store` plus the storage directory
(path ↦ stored content). -/
structure ServerState where
  store : List (String × UploadRecord)
  files : List (String × UploadContent)
deriving Repr, DecidableEq

/-- Outcome of a request handler: a 2xx payload or an `HTTPException`. -/
inductive UploadOutcome where
  | created (doc_id : String) (message : String)
  | httpError (code : Nat) (detail : String)
deriving Repr, DecidableEq

/-- Everything `upload_file` leaves behind: the HTTP outcome, the new
server state, and whether `await file.close()` was executed on the
incoming upload stream. -/
structure UploadResult where
  outcome : UploadOutcome
  state : ServerState
  streamClosed : Bool
deriving Repr, DecidableEq

/-- Lines 48-89, `upload_file`:
1. derive the extension (line 53) and reject with 400 when it is not in
   `ALLOWED_EXTENSIONS` (lines 54-59) — the `finally: await file.close()`
   belongs to the later storage `try` and is never reached on this path;
2. write the bytes to `storagePath` (lines 62-68), mapping a write failure
   to 500 — the `finally` closes the stream in all cases from here on;
3. run `extract_text_from_file` and insert the record on success
   (lines 75-82); on any extraction exception delete the just-written file
   and re-raise (lines 83-86).
`order` is the iteration order of the set `ALLOWED_EXTENSIONS` used by the
400 message (membership itself does not depend on it), `doc_id` the
generated UUID, `writeOk` whether the storage step succeeds. -/
def upload_file (order : List String) (st : ServerState) (doc_id : String)
    (filename : Option String) (content : UploadContent) (writeOk : Bool) :
    UploadResult :=
  let file_extension := derivedExtension filename
  if file_extension ∉ ALLOWED_EXTENSIONS then
    { outcome := UploadOutcome.httpError 400 (invalidTypeDetail order)
      state := st
      streamClosed := false }
  else
    let file_path := storagePath doc_id file_extension
    if !writeOk then
      { outcome := UploadOutcome.httpError 500 "Could not save file."
        state := st
        streamClosed := true }
    else
      let st1 : ServerState := { st with files := (file_path, content) :: st.files }
      match extract_text_from_file content file_extension with
      | Except.ok text =>
        { outcome := UploadOutcome.created doc_id
            "File uploaded and text extracted successfully."
          state :=
            { st1 with
              store := (doc_id,
                { filename := filename
                  filepath := file_path
                  extension := file_extension
                  text := text }) :: st1.store }
          streamClosed := true }
      | Except.error (code, detail) =>
        { outcome := UploadOutcome.httpError code detail
          state :=
            { st1 with
              files := st1.files.filter (fun p => p.1 ≠ file_path) }
          streamClosed := true }

/-- Outcome of `GET /uploads/{doc_id}/text`. -/
inductive GetTextResult where
  | ok (doc_id : String) (filename : Option String) (text : String)
  | notFound (code : Nat) (detail : String)
deriving Repr, DecidableEq

/-- Lines 92-105, `get_extracted_text`: 404 when `doc_id` is not a key of
`_upload_store`, otherwise the stored filename and text verbatim.  The
handler only reads the store; the returned state is the input state. -/
def get_extracted_text (st : ServerState) (doc_id : String) :
    GetTextResult × ServerState :=
  match storeLookup st.store doc_id with
  | none => (GetTextResult.notFound 404 "Document ID not found.", st)
  | some r => (GetTextResult.ok doc_id r.filename r.text, st)

/-- A concrete reachable state with one stored record, used to instantiate
universally quantified statements. -/
def sampleState : ServerState :=
  ⟨[("k1",
      { filename := some "notes.txt"
        filepath := "backend/storage/k1.txt"
        extension := "txt"
        text := "hello" })], []⟩

end UploadService

namespace UploadService

/-! Helper lemmas about the embedded Python string primitives. -/

theorem splitOnChar_ne_nil (c : Char) (l : List Char) : splitOnChar c l ≠ [] := by
  cases l with
  | nil => simp [splitOnChar]
  | cons x xs =>
    simp only [splitOnChar]
    split
    · simp
    · split <;> simp

theorem splitOnChar_of_not_mem {c : Char} {l : List Char} (h : c ∉ l) :
    splitOnChar c l = [l] := by
  induction l with
  | nil => rfl
  | cons x xs ih =>
    simp only [List.mem_cons, not_or] at h
    obtain ⟨hx, hxs⟩ := h
    simp [splitOnChar, if_neg (Ne.symm hx), ih hxs]

theorem splitOnChar_cons_shape (c : Char) {l : List Char} (h : c ∈ l) :
    ∃ y ys, splitOnChar c l = y :: ys ∧ ys ≠ [] := by
  induction l with
  | nil => cases h
  | cons x xs ih =>
    by_cases hx : x = c
    · subst hx
      exact ⟨[], splitOnChar x xs, by simp [splitOnChar], splitOnChar_ne_nil x xs⟩
    · have hmem : c ∈ xs := by
        rcases List.mem_cons.mp h with h1 | h1
        · exact absurd h1.symm hx
        · exact h1
      obtain ⟨y, ys, hr, hys⟩ := ih hmem
      exact ⟨x :: y, ys, by simp [splitOnChar, if_neg hx, hr], hys⟩

theorem splitOnChar_cons_sep (c : Char) (l : List Char) :
    splitOnChar c (c :: l) = [] :: splitOnChar c l := by
  simp [splitOnChar]

theorem splitOnChar_cons_ne {c x : Char} (hx : x ≠ c) {l : List Char}
    {y : List Char} {ys : List (List Char)}
    (hr : splitOnChar c l = y :: ys) :
    splitOnChar c (x :: l) = (x :: y) :: ys := by
  simp [splitOnChar, if_neg hx, hr]

theorem getLastD_splitOnChar_append (c : Char) (l₁ l₂ : List Char)
    (h : c ∉ l₂) : ∀ d, (splitOnChar c (l₁ ++ c :: l₂)).getLastD d = l₂ := by
  induction l₁ with
  | nil =>
    intro d
    rw [List.nil_append, splitOnChar_cons_sep, splitOnChar_of_not_mem h,
      List.getLastD_cons, List.getLastD_cons]
    rfl
  | cons x xs ih =>
    intro d
    by_cases hx : x = c
    · subst hx
      rw [List.cons_append, splitOnChar_cons_sep, List.getLastD_cons]
      exact ih []
    · have hmem : c ∈ xs ++ c :: l₂ := by simp
      obtain ⟨y, ys, hr, hys⟩ := splitOnChar_cons_shape c hmem
      rw [List.cons_append, splitOnChar_cons_ne hx hr, List.getLastD_cons]
      have h2 := ih d
      rw [hr, List.getLastD_cons] at h2
      cases ys with
      | nil => exact absurd rfl hys
      | cons z zs =>
        rw [List.getLastD_cons] at h2 ⊢
        exact h2

theorem pyExtOf_of_no_dot {s : String} (h : '.' ∉ s.data) :
    pyExtOf s = ⟨s.data.map Char.toLower⟩ := by
  rw [pyExtOf, splitOnChar_of_not_mem h]
  rfl

theorem data_append_dot (p s : String) :
    (p ++ "." ++ s).data = p.data ++ '.' :: s.data := by
  simp [String.data_append]

theorem append_dot_ne_empty (p s : String) : p ++ "." ++ s ≠ "" := by
  intro e
  have hd := congrArg String.data e
  rw [data_append_dot] at hd
  simp at hd

theorem unlAux_false_of_no_cr {l : List Char} (h : '\r' ∉ l) :
    unlAux false l = l := by
  induction l with
  | nil => rfl
  | cons x xs ih =>
    simp only [List.mem_cons, not_or] at h
    obtain ⟨hx, hxs⟩ := h
    simp [unlAux, if_neg (Ne.symm hx), ih hxs]

theorem universalNewlinesL_of_no_cr {l : List Char} (h : '\r' ∉ l) :
    universalNewlinesL l = l :=
  unlAux_false_of_no_cr h

theorem universalNewlines_of_no_cr {s : String} (h : '\r' ∉ s.data) :
    universalNewlines s = s := by
  rw [universalNewlines, universalNewlinesL_of_no_cr h]

theorem pdfPageLoop_map_some (pages : List String) :
    ∀ acc, pdfPageLoop (pages.map some) acc =
      some (pages.foldl (fun r s => r ++ s) acc) := by
  induction pages with
  | nil => intro acc; rfl
  | cons p ps ih => intro acc; simp [pdfPageLoop, ih]

/-! Helper lemmas about the embedded handlers. -/

theorem extract_txt_ok {c : UploadContent} {C : String}
    (h : c.utf8Decode = some C) :
    extract_text_from_file c "txt" = Except.ok (universalNewlines C) := by
  simp [extract_text_from_file, extractInner, h]

theorem extract_error_shape {c : UploadContent} {e : String} {x : Nat × String}
    (h : extract_text_from_file c e = Except.error x) :
    x = (500, "Failed to extract text from file.") := by
  unfold extract_text_from_file at h
  cases hin : extractInner c e <;> rw [hin] at h <;> simp_all

theorem upload_file_invalid {fn : Option String}
    (h : derivedExtension fn ∉ ALLOWED_EXTENSIONS)
    (order : List String) (st : ServerState) (doc_id : String)
    (c : UploadContent) (w : Bool) :
    upload_file order st doc_id fn c w =
      ⟨UploadOutcome.httpError 400 (invalidTypeDetail order), st, false⟩ := by
  simp [upload_file, h]

theorem upload_file_writeFail {fn : Option String}
    (h : derivedExtension fn ∈ ALLOWED_EXTENSIONS)
    (order : List String) (st : ServerState) (doc_id : String)
    (c : UploadContent) :
    upload_file order st doc_id fn c false =
      ⟨UploadOutcome.httpError 500 "Could not save file.", st, true⟩ := by
  simp [upload_file, h]

theorem upload_file_extract_ok {fn : Option String} {c : UploadContent}
    {t : String} (h : derivedExtension fn ∈ ALLOWED_EXTENSIONS)
    (hx : extract_text_from_file c (derivedExtension fn) = Except.ok t)
    (order : List String) (st : ServerState) (doc_id : String) :
    upload_file order st doc_id fn c true =
      ⟨UploadOutcome.created doc_id
          "File uploaded and text extracted successfully.",
        ⟨(doc_id,
            { filename := fn
              filepath := storagePath doc_id (derivedExtension fn)
              extension := derivedExtension fn
              text := t }) :: st.store,
          (storagePath doc_id (derivedExtension fn), c) :: st.files⟩,
        true⟩ := by
  simp [upload_file, h, hx]

theorem upload_file_extract_err {fn : Option String} {c : UploadContent}
    {code : Nat} {detail : String}
    (h : derivedExtension fn ∈ ALLOWED_EXTENSIONS)
    (hx : extract_text_from_file c (derivedExtension fn) =
      Except.error (code, detail))
    (order : List String) (st : ServerState) (doc_id : String) :
    upload_file order st doc_id fn c true =
      ⟨UploadOutcome.httpError code detail,
        ⟨st.store,
          st.files.filter
            (fun p => p.1 ≠ storagePath doc_id (derivedExtension fn))⟩,
        true⟩ := by
  simp [upload_file, h, hx]

theorem storeLookup_cons_self (doc_id : String) (r : UploadRecord)
    (rest : List (String × UploadRecord)) :
    storeLookup ((doc_id, r) :: rest) doc_id = some r := by
  simp [storeLookup]

theorem storeLookup_cons_ne {doc_id k : String} (hk : k ≠ doc_id)
    (r : UploadRecord) (rest : List (String × UploadRecord)) :
    storeLookup ((doc_id, r) :: rest) k = storeLookup rest k := by
  simp [storeLookup, if_neg (Ne.symm hk)]

end UploadService

namespace UploadService

theorem derivedExtension_append_dot {p s : String} (h : '.' ∉ s.data) :
    derivedExtension (some (p ++ "." ++ s)) = ⟨s.data.map Char.toLower⟩ := by
  rw [derivedExtension, if_neg (append_dot_ne_empty p s), pyExtOf,
    data_append_dot, getLastD_splitOnChar_append '.' p.data s.data h]

theorem derivedExtension_no_dot {s : String} (hne : s ≠ "")
    (h : '.' ∉ s.data) :
    derivedExtension (some s) = ⟨s.data.map Char.toLower⟩ := by
  rw [derivedExtension, if_neg hne, pyExtOf_of_no_dot h]

theorem perm_pair_cases {α : Type} [DecidableEq α] {a b : α} (hab : a ≠ b)
    {l : List α} (h : l.Perm [a, b]) : l = [a, b] ∨ l = [b, a] := by
  have hlen : l.length = 2 := h.length_eq
  match l, hlen with
  | [x, y], _ =>
    have hx : x ∈ [a, b] := h.subset (by simp)
    have hy : y ∈ [a, b] := h.subset (by simp)
    have hnd : List.Nodup [x, y] := h.nodup_iff.mpr (by simp [hab])
    have hxy : x ≠ y := by
      intro e
      subst e
      simp at hnd
    simp only [List.mem_cons, List.mem_singleton, List.not_mem_nil,
      or_false] at hx hy
    rcases hx with rfl | rfl <;> rcases hy with rfl | rfl
    · exact absurd rfl hxy
    · exact Or.inl rfl
    · exact Or.inr rfl
    · exact absurd rfl hxy

end UploadService

namespace UploadService

/-! The claims. -/

/-- C1, counterexample: the claim asserts that a filename containing no
dot derives the empty extension and that such an upload is rejected by
the `{pdf, txt}` check. In the code, `"TXT".split(".")[-1].lower()` is
`"txt"`: the derived extension is the whole lower-cased filename, it is
not empty, it passes the check, and the upload succeeds. -/
theorem c1_no_dot_counterexample :
    '.' ∉ ("TXT" : String).data ∧
    derivedExtension (some "TXT") = "txt" ∧
    derivedExtension (some "TXT") ≠ "" ∧
    (upload_file ALLOWED_EXTENSIONS ⟨[], []⟩ "d0" (some "TXT")
        ⟨some "x", none⟩ true).outcome =
      UploadOutcome.created "d0"
        "File uploaded and text extracted successfully." := by
  decide

/-- C1, amended: the extension is the last dot-separated component of the
supplied filename, lower-cased: an absent or empty filename yields the
empty extension; for a filename with a dot it is the substring after the
last dot, lower-cased; a filename with no dot yields the whole filename
lower-cased (so such an upload is rejected only when that lower-cased name
is itself outside `{pdf, txt}`). -/
theorem c1_extension_derivation :
    derivedExtension none = "" ∧
    derivedExtension (some "") = "" ∧
    (∀ p s : String, '.' ∉ s.data →
      derivedExtension (some (p ++ "." ++ s)) =
        ⟨s.data.map Char.toLower⟩) ∧
    (∀ s : String, s ≠ "" → '.' ∉ s.data →
      derivedExtension (some s) = ⟨s.data.map Char.toLower⟩) :=
  ⟨rfl, rfl, fun _ _ h => derivedExtension_append_dot h,
    fun _ hne h => derivedExtension_no_dot hne h⟩

/-- C1, witness: the amended derivation evaluated on a dotted and a
dot-free filename. -/
theorem c1_extension_derivation_witness :
    derivedExtension (some ("report" ++ "." ++ "PDF")) =
      ⟨("PDF" : String).data.map Char.toLower⟩ ∧
    derivedExtension (some "README") =
      ⟨("README" : String).data.map Char.toLower⟩ :=
  ⟨c1_extension_derivation.2.2.1 "report" "PDF" (by decide),
    c1_extension_derivation.2.2.2 "README" (by decide) (by decide)⟩

/-- C2: for a fresh identifier, a record for it exists after the upload
iff the extension was accepted, the bytes were written, and extraction
succeeded; when extraction fails the propagated outcome is exactly the
extraction failure (a 500 server error) and no file remains at the
storage path. -/
theorem c2_record_iff_written_and_extracted (order : List String)
    (st : ServerState) (doc_id : String) (fn : Option String)
    (c : UploadContent) (w : Bool)
    (hfresh : storeLookup st.store doc_id = none) :
    ((∃ rec, storeLookup (upload_file order st doc_id fn c w).state.store
        doc_id = some rec) ↔
      derivedExtension fn ∈ ALLOWED_EXTENSIONS ∧ w = true ∧
        ∃ t, extract_text_from_file c (derivedExtension fn) =
          Except.ok t) ∧
    (∀ code detail,
      derivedExtension fn ∈ ALLOWED_EXTENSIONS → w = true →
      extract_text_from_file c (derivedExtension fn) =
        Except.error (code, detail) →
      (upload_file order st doc_id fn c w).outcome =
          UploadOutcome.httpError code detail ∧
        ∀ c2, (storagePath doc_id (derivedExtension fn), c2) ∉
          (upload_file order st doc_id fn c w).state.files) := by
  constructor
  · by_cases hv : derivedExtension fn ∈ ALLOWED_EXTENSIONS
    · cases w with
      | false =>
        rw [upload_file_writeFail hv]
        simp [hfresh]
      | true =>
        cases hx : extract_text_from_file c (derivedExtension fn) with
        | ok t =>
          rw [upload_file_extract_ok hv hx]
          simp [storeLookup_cons_self, hv, hx]
        | error x =>
          obtain ⟨code, detail⟩ := x
          rw [upload_file_extract_err hv hx]
          simp [hfresh, hx]
    · rw [upload_file_invalid hv]
      simp [hfresh, hv]
  · intro code detail hv hw hx
    subst hw
    rw [upload_file_extract_err hv hx]
    refine ⟨rfl, fun c2 hmem => ?_⟩
    have hp := List.of_mem_filter hmem
    simp at hp

/-- C2, witness: a fresh upload of a `.txt` file whose bytes are not valid
UTF-8 propagates the extraction failure as a 500. -/
theorem c2_witness :
    (upload_file ["pdf", "txt"] ⟨[], []⟩ "d2" (some "bad.txt")
        ⟨none, none⟩ true).outcome =
      UploadOutcome.httpError 500 "Failed to extract text from file." :=
  ((c2_record_iff_written_and_extracted ["pdf", "txt"] ⟨[], []⟩ "d2"
      (some "bad.txt") ⟨none, none⟩ true rfl).2 500
    "Failed to extract text from file." (by decide) rfl rfl).1

/-- C3: an upload whose derived extension is outside `{pdf, txt}` fails
with HTTP 400 and leaves the server state (storage directory and store)
exactly as it was. -/
theorem c3_invalid_extension_rejected (order : List String)
    (st : ServerState) (doc_id : String) (fn : Option String)
    (c : UploadContent) (w : Bool)
    (h : derivedExtension fn ∉ ALLOWED_EXTENSIONS) :
    (upload_file order st doc_id fn c w).outcome =
        UploadOutcome.httpError 400 (invalidTypeDetail order) ∧
      (upload_file order st doc_id fn c w).state = st := by
  rw [upload_file_invalid h]
  exact ⟨rfl, rfl⟩

/-- C3, witness: uploading `report.docx` is rejected with 400 and does not
change the state. -/
theorem c3_witness :
    (upload_file ["pdf", "txt"] sampleState "d3" (some "report.docx")
        ⟨some "x", none⟩ true).outcome =
      UploadOutcome.httpError 400 (invalidTypeDetail ["pdf", "txt"]) ∧
    (upload_file ["pdf", "txt"] sampleState "d3" (some "report.docx")
        ⟨some "x", none⟩ true).state = sampleState :=
  c3_invalid_extension_rejected ["pdf", "txt"] sampleState "d3"
    (some "report.docx") ⟨some "x", none⟩ true (by decide)

/-- C4, counterexample: the claim asserts `getText` returns text exactly
equal to the uploaded UTF-8 content `C`. The code reads the stored file in
Python text mode, which applies universal-newline translation: uploading
`"a\r\nb"` as `notes.txt` and fetching it returns `"a\nb"`, not `C`. -/
theorem c4_crlf_counterexample :
    (get_extracted_text (upload_file ["pdf", "txt"] ⟨[], []⟩ "d4"
          (some "notes.txt") ⟨some "a\r\nb", none⟩ true).state "d4").1 =
      GetTextResult.ok "d4" (some "notes.txt") "a\nb" ∧
    ("a\nb" : String) ≠ "a\r\nb" := by
  decide

/-- C4, amended: a successful `.txt` upload with valid-UTF-8 content `C`
followed by `getText` on the returned identifier succeeds and returns the
uploaded filename and `C` with universal-newline translation applied
(`"\r\n"` and lone `"\r"` become `"\n"`); the text equals `C` exactly
whenever `C` contains no carriage return. -/
theorem c4_txt_roundtrip (order : List String) (st : ServerState)
    (doc_id : String) (fn : Option String) (c : UploadContent) (C : String)
    (hext : derivedExtension fn = "txt") (hdec : c.utf8Decode = some C) :
    (upload_file order st doc_id fn c true).outcome =
        UploadOutcome.created doc_id
          "File uploaded and text extracted successfully." ∧
      (get_extracted_text (upload_file order st doc_id fn c true).state
          doc_id).1 =
        GetTextResult.ok doc_id fn (universalNewlines C) ∧
      ('\r' ∉ C.data → universalNewlines C = C) := by
  have hv : derivedExtension fn ∈ ALLOWED_EXTENSIONS := by
    rw [hext]
    decide
  have hx : extract_text_from_file c (derivedExtension fn) =
      Except.ok (universalNewlines C) := by
    rw [hext]
    exact extract_txt_ok hdec
  rw [upload_file_extract_ok hv hx]
  exact ⟨rfl, by simp [get_extracted_text, storeLookup_cons_self],
    fun h => universalNewlines_of_no_cr h⟩

/-- C4, witness: the round trip evaluated on `notes.txt` with content
`"hello world"`. -/
theorem c4_txt_roundtrip_witness :
    (get_extracted_text (upload_file ["pdf", "txt"] ⟨[], []⟩ "d41"
          (some "notes.txt") ⟨some "hello world", none⟩ true).state
        "d41").1 =
      GetTextResult.ok "d41" (some "notes.txt")
        (universalNewlines "hello world") :=
  (c4_txt_roundtrip ["pdf", "txt"] ⟨[], []⟩ "d41" (some "notes.txt")
    ⟨some "hello world", none⟩ "hello world" (by decide) rfl).2.1

/-- C5: when the document parses and every page renders, the extracted
text of a `pdf` upload is the concatenation of the page texts in document
order with no separator (`String.join`). -/
theorem c5_pdf_concatenation (c : UploadContent) (pages : List String)
    (h : c.pdfParse = some (pages.map some)) :
    extract_text_from_file c "pdf" = Except.ok (String.join pages) := by
  have hin : extractInner c "pdf" = some (String.join pages) := by
    rw [extractInner, if_pos rfl, h]
    show pdfPageLoop (List.map some pages) "" = some (String.join pages)
    rw [pdfPageLoop_map_some pages ""]
    rfl
  simp [extract_text_from_file, hin]

/-- C5, witness: a two-page document concatenates with no separator. -/
theorem c5_pdf_concatenation_witness :
    extract_text_from_file
        ⟨none, some [some "page one, ", some "page two"]⟩ "pdf" =
      Except.ok (String.join ["page one, ", "page two"]) :=
  c5_pdf_concatenation ⟨none, some [some "page one, ", some "page two"]⟩
    ["page one, ", "page two"] rfl

/-- C6: `getText` answers 404 with detail "Document ID not found."
exactly when the identifier is not a key of the store; otherwise it
returns the stored filename and text unchanged; and after any failed
upload under a fresh identifier, `getText` on that identifier is 404. -/
theorem c6_get_text_semantics (st : ServerState) (doc_id : String) :
    ((get_extracted_text st doc_id).1 =
        GetTextResult.notFound 404 "Document ID not found." ↔
      storeLookup st.store doc_id = none) ∧
    (∀ rec, storeLookup st.store doc_id = some rec →
      (get_extracted_text st doc_id).1 =
        GetTextResult.ok doc_id rec.filename rec.text) ∧
    (∀ order fn c w code detail,
      storeLookup st.store doc_id = none →
      (upload_file order st doc_id fn c w).outcome =
        UploadOutcome.httpError code detail →
      (get_extracted_text (upload_file order st doc_id fn c w).state
          doc_id).1 =
        GetTextResult.notFound 404 "Document ID not found.") := by
  refine ⟨?_, ?_, ?_⟩
  · cases hl : storeLookup st.store doc_id with
    | none => simp [get_extracted_text, hl]
    | some r => simp [get_extracted_text, hl]
  · intro rec hl
    simp [get_extracted_text, hl]
  · intro order fn c w code detail hl hout
    by_cases hv : derivedExtension fn ∈ ALLOWED_EXTENSIONS
    · cases w with
      | false =>
        rw [upload_file_writeFail hv]
        simp [get_extracted_text, hl]
      | true =>
        cases hx : extract_text_from_file c (derivedExtension fn) with
        | ok t =>
          rw [upload_file_extract_ok hv hx] at hout
          simp at hout
        | error x =>
          obtain ⟨code2, detail2⟩ := x
          rw [upload_file_extract_err hv hx]
          simp [get_extracted_text, hl]
    · rw [upload_file_invalid hv]
      simp [get_extracted_text, hl]

/-- C6, witness: after an upload of a corrupt `.pdf` fails, `getText` on
its identifier answers 404. -/
theorem c6_witness :
    (get_extracted_text
        (upload_file ["pdf", "txt"] ⟨[], []⟩ "d6" (some "corrupt.pdf")
          ⟨none, none⟩ true).state "d6").1 =
      GetTextResult.notFound 404 "Document ID not found." :=
  (c6_get_text_semantics ⟨[], []⟩ "d6").2.2 ["pdf", "txt"]
    (some "corrupt.pdf") ⟨none, none⟩ true 500
    "Failed to extract text from file." rfl (by decide)

/-- C7: the claim requires the document handle to be released on every
failure path; the code only reaches `doc.close()` after the page loop
completes. On a document that opens but whose second page raises in
`page.get_text()`, the handle is opened and never closed (the success
path and the open-failure path behave as claimed). -/
theorem c7_pdf_close_skipped_on_page_failure :
    (extractPdfTraced (some [some "page one", none])).docOpened = true ∧
    (extractPdfTraced (some [some "page one", none])).docClosed = false ∧
    extractPdfTraced (some [some "a", some "b"]) =
      ⟨some "ab", true, true⟩ ∧
    extractPdfTraced none = ⟨none, false, false⟩ := by
  decide

/-- C8, counterexample: the claim fixes the 400 detail string with the
order "PDF, TXT" on every run. The string joins a Python `set`, whose
iteration order is hash-seed dependent; under the equally legitimate
iteration order txt-then-pdf the emitted string differs. -/
theorem c8_order_counterexample :
    List.Perm ["txt", "pdf"] ALLOWED_EXTENSIONS ∧
    invalidTypeDetail ["txt", "pdf"] ≠
      "Invalid file type. Only PDF, TXT files are allowed." ∧
    invalidTypeDetail ["txt", "pdf"] =
      "Invalid file type. Only TXT, PDF files are allowed." := by
  refine ⟨?_, by decide, by decide⟩
  exact (List.Perm.swap "txt" "pdf" []).symm

/-- C8, amended: every upload rejected for an invalid extension carries
the detail built from the per-process iteration order of the set
`{pdf, txt}`; within a process the string is therefore fixed, and across
processes it is one of exactly two strings: "Invalid file type. Only PDF,
TXT files are allowed." or "Invalid file type. Only TXT, PDF files are
allowed.". -/
theorem c8_detail_is_one_of_two (order : List String)
    (hperm : List.Perm order ALLOWED_EXTENSIONS) :
    (∀ st doc_id fn c w, derivedExtension fn ∉ ALLOWED_EXTENSIONS →
      (upload_file order st doc_id fn c w).outcome =
        UploadOutcome.httpError 400 (invalidTypeDetail order)) ∧
    (invalidTypeDetail order =
        "Invalid file type. Only PDF, TXT files are allowed." ∨
      invalidTypeDetail order =
        "Invalid file type. Only TXT, PDF files are allowed.") := by
  constructor
  · intro st doc_id fn c w h
    rw [upload_file_invalid h]
  · rcases perm_pair_cases (a := "pdf") (b := "txt") (by decide) hperm
      with h2 | h2 <;> rw [h2]
    · exact Or.inl (by decide)
    · exact Or.inr (by decide)

/-- C8, witness: under the order txt-then-pdf, a `report.docx` upload is
rejected with that order's detail string, which is one of the two
possible strings. -/
theorem c8_witness :
    (upload_file ["txt", "pdf"] sampleState "d8" (some "report.docx")
        ⟨none, none⟩ true).outcome =
      UploadOutcome.httpError 400 (invalidTypeDetail ["txt", "pdf"]) ∧
    (invalidTypeDetail ["txt", "pdf"] =
        "Invalid file type. Only PDF, TXT files are allowed." ∨
      invalidTypeDetail ["txt", "pdf"] =
        "Invalid file type. Only TXT, PDF files are allowed.") := by
  have h := c8_detail_is_one_of_two ["txt", "pdf"]
    ((List.Perm.swap "txt" "pdf" []).symm)
  exact ⟨h.1 sampleState "d8" (some "report.docx") ⟨none, none⟩ true
    (by decide), h.2⟩

/-- C9: `getText` returns the state it was given (it mutates neither the
store nor any record), and an upload leaves the stored record of every
key other than its own generated identifier unchanged. -/
theorem c9_records_never_mutated (st : ServerState) (lookup_id : String)
    (order : List String) (doc_id : String) (fn : Option String)
    (c : UploadContent) (w : Bool) (k : String) (hk : k ≠ doc_id) :
    (get_extracted_text st lookup_id).2 = st ∧
    storeLookup (upload_file order st doc_id fn c w).state.store k =
      storeLookup st.store k := by
  constructor
  · cases hl : storeLookup st.store lookup_id <;>
      simp [get_extracted_text, hl]
  · by_cases hv : derivedExtension fn ∈ ALLOWED_EXTENSIONS
    · cases w with
      | false => rw [upload_file_writeFail hv]
      | true =>
        cases hx : extract_text_from_file c (derivedExtension fn) with
        | ok t =>
          rw [upload_file_extract_ok hv hx]
          exact storeLookup_cons_ne hk _ _
        | error x =>
          obtain ⟨code, detail⟩ := x
          rw [upload_file_extract_err hv hx]
    · rw [upload_file_invalid hv]

/-- C9, witness: a later `.txt` upload under a fresh identifier leaves the
record stored under `"k1"` untouched, and `getText` leaves the state
unchanged. -/
theorem c9_witness :
    (get_extracted_text sampleState "k1").2 = sampleState ∧
    storeLookup (upload_file ["pdf", "txt"] sampleState "d9"
        (some "b.txt") ⟨some "y", none⟩ true).state.store "k1" =
      storeLookup sampleState.store "k1" :=
  c9_records_never_mutated sampleState "k1" ["pdf", "txt"] "d9"
    (some "b.txt") ⟨some "y", none⟩ true "k1" (by decide)

/-- C10: the incoming upload stream is left unclosed exactly when the
extension check fails — `await file.close()` lives in the `finally` of
the storage step, which a validation failure never reaches, and which
every other path executes. -/
theorem c10_stream_left_open_iff_validation_fails (order : List String)
    (st : ServerState) (doc_id : String) (fn : Option String)
    (c : UploadContent) (w : Bool) :
    (upload_file order st doc_id fn c w).streamClosed = false ↔
      derivedExtension fn ∉ ALLOWED_EXTENSIONS := by
  by_cases hv : derivedExtension fn ∈ ALLOWED_EXTENSIONS
  · cases w with
    | false =>
      rw [upload_file_writeFail hv]
      simp [hv]
    | true =>
      cases hx : extract_text_from_file c (derivedExtension fn) with
      | ok t =>
        rw [upload_file_extract_ok hv hx]
        simp [hv]
      | error x =>
        obtain ⟨code, detail⟩ := x
        rw [upload_file_extract_err hv hx]
        simp [hv]
  · rw [upload_file_invalid hv]
    simp [hv]

end UploadService
